import Mathlib

/-!
Shallow embedding of the AI image generator front end: the zoomable
viewport component (ZoomableImage.tsx), the drag-drop ingestion pipeline
(DragDropZone.tsx), the application submit/history logic (App.tsx) and
the generation-service wrapper (services/gemini.ts).  Scales, positions
and pointer coordinates are modelled as rationals; encoded payloads and
media types as strings; the asynchronous parts (file-reader completions,
the remote call) as explicit completion orders and outcome values.
-/

/-- One attached reference image: the data-URL payload produced by the
file reader together with the file's declared MIME type
(`ImageState` in types.ts). -/
structure ImageState where
  data : String
  mimeType : String
deriving DecidableEq

/- ----------------------------------------------------------------
   ZoomableImage.tsx : viewport state and event handlers
   ---------------------------------------------------------------- -/

/-- The React state of `ZoomableImage`: `scale`, `position` (split into
`px`/`py`), the drag bookkeeping, the hint flag, and the `src` prop the
reset effect watches. -/
structure ZoomState where
  scale : ℚ
  px : ℚ
  py : ℚ
  isDragging : Bool
  dragX : ℚ
  dragY : ℚ
  showHint : Bool
  src : String
deriving DecidableEq

/-- Input events the component reacts to: wheel (with the ctrl-modifier
flag and vertical delta), the zoom-in / zoom-out / reset controls,
mouse down/move/up with client coordinates, and a change of the `src`
prop (which triggers the reset effect). -/
inductive ZoomOp where
  | wheel (ctrl : Bool) (deltaY : ℚ)
  | zoomInBtn
  | zoomOutBtn
  | resetView
  | mouseDown (cx cy : ℚ)
  | mouseMove (cx cy : ℚ)
  | mouseUp
  | newSrc (s : String)
deriving DecidableEq

/-- One step of the `ZoomableImage` event handlers, translated from
`handleWheel`, `zoomIn`, `zoomOut`, `reset`, `handleMouseDown`,
`handleMouseMove`, `handleMouseUp` and the `useEffect` on `[src]`. -/
def stepZ (s : ZoomState) (op : ZoomOp) : ZoomState :=
  match op with
  | .wheel ctrl dy =>
    if ctrl then
      let delta : ℚ := -dy * (2 / 1000)
      let next : ℚ := min (max 1 (s.scale + delta)) 8
      if next = 1 then { s with scale := next, px := 0, py := 0 }
      else { s with scale := next }
    else
      if s.scale = 1 then { s with showHint := true } else s
  | .zoomInBtn => { s with scale := min (s.scale + 1/2) 8 }
  | .zoomOutBtn =>
    let next : ℚ := max 1 (s.scale - 1/2)
    if next = 1 then { s with scale := next, px := 0, py := 0 }
    else { s with scale := next }
  | .resetView => { s with scale := 1, px := 0, py := 0 }
  | .mouseDown cx cy =>
    if 1 < s.scale then
      { s with isDragging := true, dragX := cx - s.px, dragY := cy - s.py }
    else s
  | .mouseMove cx cy =>
    if s.isDragging ∧ 1 < s.scale then
      { s with px := cx - s.dragX, py := cy - s.dragY }
    else s
  | .mouseUp => { s with isDragging := false }
  | .newSrc ns =>
    if ns = s.src then { s with src := ns }
    else { s with src := ns, scale := 1, px := 0, py := 0 }

/-- Initial component state: scale 1, origin position, not dragging. -/
def initZoom (src0 : String) : ZoomState :=
  ⟨1, 0, 0, false, 0, 0, false, src0⟩

/-- The viewport invariant: scale within `[1, 8]`, and translation is
the origin whenever the viewport is fully zoomed out. -/
def ZoomInv (s : ZoomState) : Prop :=
  1 ≤ s.scale ∧ s.scale ≤ 8 ∧ (s.scale = 1 → s.px = 0 ∧ s.py = 0)

instance (s : ZoomState) : Decidable (ZoomInv s) := by
  unfold ZoomInv; infer_instance

/-- Drag-gesture events: mouse down and mouse move. -/
def isPanOp : ZoomOp → Bool
  | .mouseDown _ _ => true
  | .mouseMove _ _ => true
  | _ => false

lemma clamp18_mem (x : ℚ) : 1 ≤ min (max 1 x) 8 ∧ min (max 1 x) 8 ≤ 8 :=
  ⟨le_min (le_max_left 1 x) (by norm_num), min_le_right _ _⟩

lemma stepZ_preserves_inv (s : ZoomState) (op : ZoomOp) (h : ZoomInv s) :
    ZoomInv (stepZ s op) := by
  obtain ⟨h1, h8, hpos⟩ := h
  cases op with
  | wheel ctrl dy =>
    show ZoomInv (if ctrl = true then _ else _)
    by_cases hc : ctrl = true
    · rw [if_pos hc]
      show ZoomInv (if min (max 1 (s.scale + -dy * (2 / 1000))) 8 = 1 then _ else _)
      obtain ⟨hn1, hn8⟩ := clamp18_mem (s.scale + -dy * (2 / 1000))
      by_cases he : min (max 1 (s.scale + -dy * (2 / 1000))) 8 = 1
      · rw [if_pos he]
        exact ⟨he ▸ hn1, he ▸ hn8, fun _ => ⟨rfl, rfl⟩⟩
      · rw [if_neg he]
        exact ⟨hn1, hn8, fun hx => absurd hx he⟩
    · rw [if_neg hc]
      by_cases he : s.scale = 1
      · rw [if_pos he]
        exact ⟨h1, h8, fun _ => hpos he⟩
      · rw [if_neg he]
        exact ⟨h1, h8, hpos⟩
  | zoomInBtn =>
    refine ⟨le_min (by linarith) (by norm_num), min_le_right _ _, fun hx => ?_⟩
    exfalso
    have hlt : (1 : ℚ) < min (s.scale + 1/2) 8 :=
      lt_min (by linarith) (by norm_num)
    have hx2 : min (s.scale + 1/2) 8 = 1 := hx
    rw [hx2] at hlt
    exact lt_irrefl 1 hlt
  | zoomOutBtn =>
    show ZoomInv (if max 1 (s.scale - 1/2) = 1 then _ else _)
    have hn1 : 1 ≤ max 1 (s.scale - 1/2) := le_max_left _ _
    have hn8 : max 1 (s.scale - 1/2) ≤ 8 := max_le (by norm_num) (by linarith)
    by_cases he : max 1 (s.scale - 1/2) = 1
    · rw [if_pos he]
      exact ⟨he ▸ hn1, he ▸ hn8, fun _ => ⟨rfl, rfl⟩⟩
    · rw [if_neg he]
      exact ⟨hn1, hn8, fun hx => absurd hx he⟩
  | resetView =>
    exact ⟨le_refl 1, show (1 : ℚ) ≤ 8 by norm_num, fun _ => ⟨rfl, rfl⟩⟩
  | mouseDown cx cy =>
    show ZoomInv (if 1 < s.scale then _ else _)
    by_cases hgt : 1 < s.scale
    · rw [if_pos hgt]
      exact ⟨h1, h8, hpos⟩
    · rw [if_neg hgt]
      exact ⟨h1, h8, hpos⟩
  | mouseMove cx cy =>
    show ZoomInv (if s.isDragging ∧ 1 < s.scale then _ else _)
    by_cases hgt : s.isDragging ∧ 1 < s.scale
    · rw [if_pos hgt]
      exact ⟨h1, h8, fun hx => absurd (hx : s.scale = 1) (ne_of_gt hgt.2)⟩
    · rw [if_neg hgt]
      exact ⟨h1, h8, hpos⟩
  | mouseUp =>
    exact ⟨h1, h8, hpos⟩
  | newSrc ns =>
    show ZoomInv (if ns = s.src then _ else _)
    by_cases he : ns = s.src
    · rw [if_pos he]
      exact ⟨h1, h8, hpos⟩
    · rw [if_neg he]
      exact ⟨le_refl 1, show (1 : ℚ) ≤ 8 by norm_num, fun _ => ⟨rfl, rfl⟩⟩

lemma foldl_preserves_inv (ops : List ZoomOp) :
    ∀ s : ZoomState, ZoomInv s → ZoomInv (ops.foldl stepZ s) := by
  induction ops with
  | nil => intro s h; exact h
  | cons op rest ih =>
    intro s h
    exact ih (stepZ s op) (stepZ_preserves_inv s op h)

/-- C1: for every sequence of viewport operations (wheel zoom with the
modifier, the zoom-in / zoom-out steppers, explicit reset — and any
interleaved pan events or src changes), the scale stays within
`[1, 8]`, and in every reachable state `scale = 1` implies the
translation is `(0, 0)`. -/
theorem c1_zoom_invariant (src0 : String) (ops : List ZoomOp) :
    ZoomInv (ops.foldl stepZ (initZoom src0)) :=
  foldl_preserves_inv ops (initZoom src0)
    ⟨le_refl 1, show (1 : ℚ) ≤ 8 by norm_num, fun _ => ⟨rfl, rfl⟩⟩

/-- Concrete run of `c1_zoom_invariant` on a sample operation sequence. -/
theorem c1_zoom_invariant_witness :
    ZoomInv ([ZoomOp.wheel true 1000, ZoomOp.zoomInBtn, ZoomOp.mouseDown 3 4,
      ZoomOp.mouseMove 9 9, ZoomOp.zoomOutBtn, ZoomOp.resetView].foldl
        stepZ (initZoom "a")) :=
  c1_zoom_invariant "a" _

/-- C7: whenever the displayed image identity (the `src` prop) changes,
the reset effect sets scale to 1 and translation to `(0, 0)`,
regardless of the previous viewport state. -/
theorem c7_src_change_resets_viewport (s : ZoomState) (ns : String)
    (h : ns ≠ s.src) :
    (stepZ s (ZoomOp.newSrc ns)).scale = 1 ∧
    (stepZ s (ZoomOp.newSrc ns)).px = 0 ∧
    (stepZ s (ZoomOp.newSrc ns)).py = 0 := by
  simp only [stepZ]
  rw [if_neg h]
  exact ⟨rfl, rfl, rfl⟩

/-- Concrete run of `c7_src_change_resets_viewport`: a zoomed, panned
state is fully reset by a new `src`. -/
theorem c7_src_change_resets_viewport_witness :
    (stepZ ⟨4, 7, -3, false, 0, 0, false, "a"⟩ (ZoomOp.newSrc "b")).scale = 1 ∧
    (stepZ ⟨4, 7, -3, false, 0, 0, false, "a"⟩ (ZoomOp.newSrc "b")).px = 0 ∧
    (stepZ ⟨4, 7, -3, false, 0, 0, false, "a"⟩ (ZoomOp.newSrc "b")).py = 0 :=
  c7_src_change_resets_viewport ⟨4, 7, -3, false, 0, 0, false, "a"⟩ "b" (by decide)

lemma stepZ_pan_id (s : ZoomState) (op : ZoomOp) (h1 : s.scale = 1)
    (hp : isPanOp op = true) : stepZ s op = s := by
  cases op with
  | mouseDown cx cy =>
    simp only [stepZ]
    rw [if_neg]
    rw [h1]
    exact lt_irrefl 1
  | mouseMove cx cy =>
    simp only [stepZ]
    rw [if_neg]
    intro hc
    rw [h1] at hc
    exact lt_irrefl 1 hc.2
  | wheel ctrl dy => simp [isPanOp] at hp
  | zoomInBtn => simp [isPanOp] at hp
  | zoomOutBtn => simp [isPanOp] at hp
  | resetView => simp [isPanOp] at hp
  | mouseUp => simp [isPanOp] at hp
  | newSrc ns => simp [isPanOp] at hp

/-- C8: while `scale = 1`, an entire pointer-drag gesture — any
sequence of mouse-down and mouse-move events — leaves the component
state (in particular the translation) completely unchanged. -/
theorem c8_pan_noop_at_scale_one (s : ZoomState) (h1 : s.scale = 1)
    (ops : List ZoomOp) (hp : ∀ op ∈ ops, isPanOp op = true) :
    ops.foldl stepZ s = s := by
  induction ops with
  | nil => rfl
  | cons op rest ih =>
    have hop : stepZ s op = s := stepZ_pan_id s op h1 (hp op (List.mem_cons_self op rest))
    simp only [List.foldl_cons, hop]
    exact ih (fun o ho => hp o (List.mem_cons_of_mem op ho))

/-- Concrete run of `c8_pan_noop_at_scale_one`: a drag gesture at scale
1 leaves the initial state untouched. -/
theorem c8_pan_noop_at_scale_one_witness :
    [ZoomOp.mouseDown 3 4, ZoomOp.mouseMove 5 6,
      ZoomOp.mouseMove 8 1].foldl stepZ (initZoom "a") = initZoom "a" :=
  c8_pan_noop_at_scale_one (initZoom "a") rfl _ (by decide)

/- ----------------------------------------------------------------
   DragDropZone.tsx : processFiles ingestion batch
   ---------------------------------------------------------------- -/

/-- A raw dropped/picked/pasted file: its declared MIME type
(`file.type`) and the body that the file reader will encode. -/
structure RawFile where
  ftype : String
  content : String
deriving DecidableEq

/-- The `file.type.startsWith('image/')` filter of `processFiles`:
the string prefix test, taken on the underlying character lists. -/
def isImageFile (f : RawFile) : Bool :=
  "image/".toList.isPrefixOf f.ftype.toList

/-- The `ImageState` that the `FileReader.onload` callback pushes:
`reader.readAsDataURL` yields a data URL tagged with the file's MIME
type, and `mimeType` is taken from `file.type`. -/
def encodeFile (f : RawFile) : ImageState :=
  { data := "data:" ++ f.ftype ++ ";base64," ++ f.content
    mimeType := f.ftype }

/-- The mutable closure state of one `processFiles` call: the
`newImages` accumulator, the `processedCount` counter, and the value
passed to `onImagesChange` if the commit has fired. -/
structure BatchSim where
  newImages : List ImageState
  processedCount : Nat
  committed : Option (List ImageState)
deriving DecidableEq

/-- The synchronous `forEach` body for one file: a non-image file just
bumps `processedCount` (committing only if the counter is full and
some image has already been pushed); an image file only starts its
reader, whose callback runs later. `old` is the captured
`currentImages`, `n` is `filesArray.length`. -/
def syncStep (old : List ImageState) (n : Nat) (s : BatchSim) (f : RawFile) : BatchSim :=
  if isImageFile f then s
  else
    let s1 : BatchSim := { s with processedCount := s.processedCount + 1 }
    if s1.processedCount = n ∧ 0 < s1.newImages.length then
      { s1 with committed := some (old ++ s1.newImages) }
    else s1

/-- One `reader.onload` completion for the valid file `f`: push the
encoded image onto `newImages`, bump `processedCount`, and commit
`currentImages ++ newImages` once the counter reaches `n`. -/
def asyncStep (old : List ImageState) (n : Nat) (s : BatchSim) (f : RawFile) : BatchSim :=
  let s1 : BatchSim := { s with newImages := s.newImages ++ [encodeFile f]
                                processedCount := s.processedCount + 1 }
  if s1.processedCount = n then { s1 with committed := some (old ++ s1.newImages) }
  else s1

/-- A whole `processFiles` run: the synchronous `forEach` pass over the
batch, then the reader completions in the order `order` (the valid
files, in whatever order their asynchronous encodes finish).  The
result is the `SourceImageSet` after the batch: the committed value,
or the unchanged `old` list when no commit fired. -/
def runBatch (old : List ImageState) (files : List RawFile)
    (order : List RawFile) : List ImageState :=
  if files.length = 0 then old
  else
    let s0 := files.foldl (syncStep old files.length) ⟨[], 0, none⟩
    let s1 := order.foldl (asyncStep old files.length) s0
    s1.committed.getD old

lemma syncFold (old : List ImageState) (n : Nat) :
    ∀ (files : List RawFile) (s : BatchSim), s.newImages = [] → s.committed = none →
      files.foldl (syncStep old n) s =
        ⟨[], s.processedCount + (files.filter (fun f => !(isImageFile f))).length, none⟩ := by
  intro files
  induction files with
  | nil =>
    intro s hni hc
    cases s with
    | mk ni pc c =>
      simp only at hni hc
      subst hni; subst hc
      simp [List.foldl]
  | cons f fs ih =>
    intro s hni hc
    by_cases hf : isImageFile f
    · have hstep : syncStep old n s f = s := by
        simp [syncStep, hf]
      rw [List.foldl_cons, hstep, ih s hni hc]
      simp [List.filter, hf]
    · have hstep : syncStep old n s f =
          { s with processedCount := s.processedCount + 1 } := by
        simp only [syncStep, hf, Bool.false_eq_true, if_false]
        rw [if_neg]
        intro hcond
        rw [hni] at hcond
        simp at hcond
      rw [List.foldl_cons, hstep,
        ih { s with processedCount := s.processedCount + 1 } hni hc]
      simp only [List.filter, hf]
      simp [Nat.add_assoc, Nat.add_comm 1]

lemma asyncFold (old : List ImageState) (n : Nat) :
    ∀ (order : List RawFile) (s : BatchSim), s.committed = none →
      s.processedCount + order.length = n →
      (order.foldl (asyncStep old n) s).newImages =
          s.newImages ++ order.map encodeFile ∧
      (order.foldl (asyncStep old n) s).committed =
        (if order.length = 0 then none
         else some (old ++ (s.newImages ++ order.map encodeFile))) := by
  intro order
  induction order with
  | nil =>
    intro s hc hn
    simp [List.foldl, hc]
  | cons f rest ih =>
    intro s hc hn
    by_cases hrest : rest.length = 0
    · have hre : rest = [] := List.length_eq_zero.mp hrest
      subst hre
      have hcount : s.processedCount + 1 = n := by
        simpa using hn
      have hstep : asyncStep old n s f =
          ⟨s.newImages ++ [encodeFile f], s.processedCount + 1,
            some (old ++ (s.newImages ++ [encodeFile f]))⟩ := by
        simp [asyncStep, hcount]
      rw [List.foldl_cons, hstep]
      simp [List.foldl]
    · have hcount : s.processedCount + 1 ≠ n := by
        intro hx
        rw [← hx] at hn
        have : rest.length = 0 := by
          simpa [List.length_cons, Nat.add_comm, Nat.add_left_cancel_iff] using hn
        exact hrest this
      have hstep : asyncStep old n s f =
          ⟨s.newImages ++ [encodeFile f], s.processedCount + 1, s.committed⟩ := by
        simp [asyncStep, hcount]
      rw [List.foldl_cons, hstep]
      have hn2 : (⟨s.newImages ++ [encodeFile f], s.processedCount + 1,
          s.committed⟩ : BatchSim).processedCount + rest.length = n := by
        simp only [List.length_cons] at hn
        simpa [Nat.add_assoc, Nat.add_comm 1] using hn
      obtain ⟨hni, hcm⟩ := ih ⟨s.newImages ++ [encodeFile f],
        s.processedCount + 1, s.committed⟩ (by simpa using hc) hn2
      refine ⟨?_, ?_⟩
      · rw [hni]
        simp
      · rw [hcm]
        rw [if_neg hrest]
        rw [if_neg (by simp : ¬(f :: rest).length = 0)]
        simp

/-- C2 (amended): a batch commit appends exactly the encoded valid
images after the existing entries, but in encode-completion order: for
every completion order (any permutation of the batch's valid files),
the resulting set is `old ++ order.map encodeFile`, and it grows by
exactly the number of valid files. -/
theorem c2_amended_completion_order (old : List ImageState)
    (files order : List RawFile)
    (h : order.Perm (files.filter (fun f => isImageFile f))) :
    runBatch old files order = old ++ order.map encodeFile ∧
    (runBatch old files order).length =
      old.length + (files.filter (fun f => isImageFile f)).length := by
  have hlen : order.length = (files.filter (fun f => isImageFile f)).length :=
    h.length_eq
  by_cases hf : files.length = 0
  · have hfe : files = [] := List.length_eq_zero.mp hf
    subst hfe
    have horder : order = [] := by
      have : order.length = 0 := by simpa using hlen
      exact List.length_eq_zero.mp this
    subst horder
    simp [runBatch]
  · have hsplit : files.length =
        (files.filter (fun f => isImageFile f)).length +
          (files.filter (fun f => !(isImageFile f))).length :=
      List.length_eq_length_filter_add (fun f => isImageFile f)
    have hsum : (files.filter (fun f => !(isImageFile f))).length + order.length
        = files.length := by
      rw [hlen]
      omega
    have hsync := syncFold old files.length files ⟨[], 0, none⟩ rfl rfl
    have hasync := asyncFold old files.length order
      ⟨[], 0 + (files.filter (fun f => !(isImageFile f))).length, none⟩
      rfl (by simpa using hsum)
    obtain ⟨hni, hcm⟩ := hasync
    have hrun : runBatch old files order =
        (order.foldl (asyncStep old files.length)
          ⟨[], 0 + (files.filter (fun f => !(isImageFile f))).length,
            none⟩).committed.getD old := by
      unfold runBatch
      rw [if_neg hf, hsync]
    constructor
    · rw [hrun]
      by_cases ho : order.length = 0
      · have hoe : order = [] := List.length_eq_zero.mp ho
        subst hoe
        rw [hcm]
        simp
      · rw [hcm, if_neg ho]
        simp
    · rw [hrun]
      by_cases ho : order.length = 0
      · have hoe : order = [] := List.length_eq_zero.mp ho
        subst hoe
        rw [hcm]
        have hk : (files.filter (fun f => isImageFile f)).length = 0 := by
          simpa using hlen.symm
        simp [hk]
      · rw [hcm, if_neg ho]
        simp [hlen.symm]

/-- Concrete run of `c2_amended_completion_order`: a one-file batch
whose single encode completes and commits in order. -/
theorem c2_amended_completion_order_witness :
    runBatch [] [⟨"image/png", "AAA"⟩] [⟨"image/png", "AAA"⟩] =
        [] ++ ([⟨"image/png", "AAA"⟩] : List RawFile).map encodeFile ∧
    (runBatch [] [⟨"image/png", "AAA"⟩] [⟨"image/png", "AAA"⟩]).length =
      ([] : List ImageState).length +
        (([⟨"image/png", "AAA"⟩] : List RawFile).filter
          (fun f => isImageFile f)).length := by
  have hfil : (([⟨"image/png", "AAA"⟩] : List RawFile).filter
      (fun f => isImageFile f)) = [⟨"image/png", "AAA"⟩] := by decide
  exact c2_amended_completion_order [] [⟨"image/png", "AAA"⟩]
    [⟨"image/png", "AAA"⟩] (by rw [hfil])

/-- C2 as stated is false: with the batch `[png, jpeg]` (both valid)
and the jpeg encode completing first, the committed set is in
completion order `[jpeg, png]`, not the input order `[png, jpeg]` that
the claim requires — even though `[jpeg, png]` is a legitimate
completion order (a permutation of the valid files). -/
theorem c2_counterexample :
    ([⟨"image/jpeg", "BBB"⟩, ⟨"image/png", "AAA"⟩] : List RawFile).Perm
        (([⟨"image/png", "AAA"⟩, ⟨"image/jpeg", "BBB"⟩] : List RawFile).filter
          (fun f => isImageFile f)) ∧
    runBatch [] [⟨"image/png", "AAA"⟩, ⟨"image/jpeg", "BBB"⟩]
        [⟨"image/jpeg", "BBB"⟩, ⟨"image/png", "AAA"⟩] ≠
      [] ++ (([⟨"image/png", "AAA"⟩, ⟨"image/jpeg", "BBB"⟩] : List RawFile).filter
          (fun f => isImageFile f)).map encodeFile := by
  have hfil : (([⟨"image/png", "AAA"⟩, ⟨"image/jpeg", "BBB"⟩] : List RawFile).filter
      (fun f => isImageFile f)) =
      [⟨"image/png", "AAA"⟩, ⟨"image/jpeg", "BBB"⟩] := by decide
  constructor
  · rw [hfil]
    exact List.Perm.swap _ _ []
  · decide

/- ----------------------------------------------------------------
   App.tsx (two variants) and services/gemini.ts
   ---------------------------------------------------------------- -/

/-- One session-history entry (`GeneratedImage` in types.ts): synthetic
id, result data URL, the exact submitted prompt, the snapshot of the
source-image payloads, and the creation timestamp. -/
structure GeneratedImage where
  id : String
  url : String
  prompt : String
  sourceImages : List String
  timestamp : Nat
deriving DecidableEq

/-- The `App` component state: prompt text, attached source images,
the displayed result, the busy flag, the copy feedback flag, the error
message, the selected aspect ratio and the session history. -/
structure AppState where
  prompt : String
  sourceImages : List ImageState
  generatedImage : Option String
  isLoading : Bool
  isCopied : Bool
  error : Option String
  aspectRatio : String
  history : List GeneratedImage
deriving DecidableEq

/-- The argument record passed to `generateOrEditImage` — the
GenerationClient boundary request: prompt, source images, ratio hint. -/
structure GenRequest where
  prompt : String
  sourceImages : List ImageState
  aspectRatio : String
deriving DecidableEq

/-- ASCII whitespace for the `String.prototype.trim` model. -/
def isSpaceChar (c : Char) : Bool :=
  c = ' ' || c = '\t' || c = '\n' || c = '\r' || c = '\x0b' || c = '\x0c'

/-- Model of `prompt.trim()`: strip whitespace from both ends. -/
def jsTrim (cs : List Char) : List Char :=
  ((cs.dropWhile isSpaceChar).reverse.dropWhile isSpaceChar).reverse

/-- The `!prompt.trim()` guard: true when the trimmed prompt is the
empty string. -/
def promptBlank (p : String) : Bool :=
  (jsTrim p.toList).isEmpty

/-- A part of the remote model's response: either an inline image
(`part.inlineData`) or plain text (`part.text`). -/
inductive RespPart where
  | inlineData (mimeType : String) (data : String)
  | text (t : String)
deriving DecidableEq

/-- First response part carrying `inlineData`, as scanned by the first
`for` loop of `generateOrEditImage`. -/
def findInline : List RespPart → Option (String × String)
  | [] => none
  | .inlineData mt d :: _ => some (mt, d)
  | .text _ :: rest => findInline rest

/-- First response part carrying `text`, as scanned by the second
`for` loop of `generateOrEditImage`. -/
def findText : List RespPart → Option String
  | [] => none
  | .text t :: _ => some t
  | .inlineData _ _ :: rest => findText rest

/-- Response parsing of `generateOrEditImage`: the first inline image
becomes a data URL; otherwise the first text part becomes an error;
otherwise the empty-response error. -/
def parseResponse (parts : List RespPart) : Except String String :=
  match findInline parts with
  | some (mt, d) => Except.ok ("data:" ++ mt ++ ";base64," ++ d)
  | none =>
    match findText parts with
    | some t => Except.error ("Model returned text instead of image: " ++ t)
    | none => Except.error "No image generated. The model response was empty or invalid."

/-- The body of the `try` block of `generateOrEditImage`: a transport
failure, a missing candidate/content (`none`), or the parsed parts. -/
def geiInner (transport : Except String (Option (List RespPart))) :
    Except String String :=
  match transport with
  | .error m => .error m
  | .ok none => .error "No image generated. The model response was empty or invalid."
  | .ok (some parts) => parseResponse parts

/-- `generateOrEditImage` as a whole: the `catch` block rethrows every
failure as `new Error(error.message || "Failed to process image request.")`. -/
def generateOrEditImageOutcome
    (transport : Except String (Option (List RespPart))) :
    Except String String :=
  match geiInner transport with
  | .ok r => .ok r
  | .error m => .error (if m = "" then "Failed to process image request." else m)

/-- The shared body of `handleGenerate` after its guard (both App
variants are identical here): dispatch the request built from the
current state, and either record the result (set the displayed image,
prepend the history item) or store the error message; `isLoading` is
cleared in the `finally` block. -/
def runGenerate (s : AppState) (outcome : Except String String)
    (idv : String) (ts : Nat) : AppState × Option GenRequest :=
  let req : GenRequest := ⟨s.prompt, s.sourceImages, s.aspectRatio⟩
  match outcome with
  | .ok r =>
    let item : GeneratedImage :=
      ⟨idv, r, s.prompt, s.sourceImages.map (fun im => im.data), ts⟩
    ({ s with isLoading := false, error := none, generatedImage := some r, history := item :: s.history }, some req)
  | .error m =>
    let msg : String := if m = "" then "An unexpected error occurred." else m
    ({ s with isLoading := false, error := some msg }, some req)

/-- `handleGenerate` of the first App variant: guard
`if (!prompt.trim() || isLoading) return;`. -/
def handleGenerateApp0 (s : AppState) (outcome : Except String String)
    (idv : String) (ts : Nat) : AppState × Option GenRequest :=
  if promptBlank s.prompt || s.isLoading then (s, none)
  else runGenerate s outcome idv ts

/-- `handleGenerate` of the second App variant: guard
`if (!prompt.trim()) return;` only. -/
def handleGenerateApp1 (s : AppState) (outcome : Except String String)
    (idv : String) (ts : Nat) : AppState × Option GenRequest :=
  if promptBlank s.prompt then (s, none)
  else runGenerate s outcome idv ts

/-- A click on the submit button of the second App variant: the Button
is rendered with `disabled={!prompt.trim() || isLoading}`, and a
disabled button does not invoke its handler. -/
def submitClickApp1 (s : AppState) (outcome : Except String String)
    (idv : String) (ts : Nat) : AppState × Option GenRequest :=
  if promptBlank s.prompt || s.isLoading then (s, none)
  else handleGenerateApp1 s outcome idv ts

/-- Attempted match of the regex `data:([^;]+);` at the head of the
character list: the literal `data:`, then a nonempty maximal run of
non-semicolon characters (the capture), then a semicolon. -/
def tagAt (cs : List Char) : Option (List Char) :=
  if cs.take 5 = "data:".toList then
    let rest := cs.drop 5
    let tag := rest.takeWhile (fun c => c != ';')
    if tag.length ≠ 0 ∧ tag.length < rest.length then some tag else none
  else none

/-- Leftmost match of `data.match(/data:([^;]+);/)`: the capture group
of the first position where the pattern matches. -/
def findTag : List Char → Option (List Char)
  | [] => none
  | c :: cs =>
    match tagAt (c :: cs) with
    | some t => some t
    | none => findTag cs

/-- One restored source image in `handleRestoreHistory`: the stored
payload, with the media type parsed from the payload's embedded tag,
falling back to `image/png` when the pattern does not match. -/
def restoreImage (data : String) : ImageState :=
  { data := data
    mimeType :=
      match findTag data.toList with
      | some t => String.mk t
      | none => "image/png" }

/-- `handleRestoreHistory`: show the entry's result, restore its
prompt, and rebuild the source-image list from the stored payloads
(empty when the entry held none). -/
def handleRestoreHistory (s : AppState) (item : GeneratedImage) : AppState :=
  { s with generatedImage := some item.url
           prompt := item.prompt
           sourceImages :=
             if 0 < item.sourceImages.length then
               item.sourceImages.map restoreImage
             else [] }

/-- C3: while a generation is in flight (`isLoading` set), a further
submit attempt dispatches no request and changes nothing — in the
first App variant through the handler's own guard, in the second
through the disabled submit button. -/
theorem c3_busy_submit_noop (s : AppState) (o : Except String String)
    (idv : String) (ts : Nat) (h : s.isLoading = true) :
    handleGenerateApp0 s o idv ts = (s, none) ∧
    submitClickApp1 s o idv ts = (s, none) := by
  refine ⟨?_, ?_⟩ <;> simp [handleGenerateApp0, submitClickApp1, h]

/-- Concrete run of `c3_busy_submit_noop` on a busy state. -/
theorem c3_busy_submit_noop_witness :
    handleGenerateApp0 ⟨"hi", [], none, true, false, none, "1:1", []⟩
        (Except.ok "r") "id" 0 =
      (⟨"hi", [], none, true, false, none, "1:1", []⟩, none) ∧
    submitClickApp1 ⟨"hi", [], none, true, false, none, "1:1", []⟩
        (Except.ok "r") "id" 0 =
      (⟨"hi", [], none, true, false, none, "1:1", []⟩, none) :=
  c3_busy_submit_noop ⟨"hi", [], none, true, false, none, "1:1", []⟩
    (Except.ok "r") "id" 0 rfl

/-- C4: submitting with prompt `a red balloon`, no source images and
ratio `1:1` passes exactly that request to the generation client, and
on success the newest history entry records that prompt with an empty
source-image snapshot. -/
theorem c4_end_to_end_request_and_history (s : AppState) (r idv : String)
    (ts : Nat) (hp : s.prompt = "a red balloon") (hsi : s.sourceImages = [])
    (har : s.aspectRatio = "1:1") (hl : s.isLoading = false) :
    (handleGenerateApp0 s (Except.ok r) idv ts).2 =
        some ⟨"a red balloon", [], "1:1"⟩ ∧
    (handleGenerateApp0 s (Except.ok r) idv ts).1.history.head? =
        some ⟨idv, r, "a red balloon", [], ts⟩ := by
  have hblank : promptBlank "a red balloon" = false := by decide
  refine ⟨?_, ?_⟩ <;>
    simp [handleGenerateApp0, runGenerate, hp, hsi, har, hl, hblank]

/-- Concrete run of `c4_end_to_end_request_and_history`. -/
theorem c4_end_to_end_request_and_history_witness :
    (handleGenerateApp0 ⟨"a red balloon", [], none, false, false, none, "1:1", []⟩
        (Except.ok "data:image/png;base64,Zm9v") "id0" 7).2 =
      some ⟨"a red balloon", [], "1:1"⟩ ∧
    (handleGenerateApp0 ⟨"a red balloon", [], none, false, false, none, "1:1", []⟩
        (Except.ok "data:image/png;base64,Zm9v") "id0" 7).1.history.head? =
      some ⟨"id0", "data:image/png;base64,Zm9v", "a red balloon", [], 7⟩ :=
  c4_end_to_end_request_and_history
    ⟨"a red balloon", [], none, false, false, none, "1:1", []⟩
    "data:image/png;base64,Zm9v" "id0" 7 rfl rfl rfl rfl

lemma gei_error_ne_empty (tr : Except String (Option (List RespPart)))
    (m : String) (h : generateOrEditImageOutcome tr = Except.error m) :
    m ≠ "" := by
  unfold generateOrEditImageOutcome at h
  cases hg : geiInner tr with
  | ok r => rw [hg] at h; exact absurd h (by simp)
  | error m0 =>
    rw [hg] at h
    simp only [Except.error.injEq] at h
    by_cases he : m0 = ""
    · rw [if_pos he] at h
      rw [← h]
      decide
    · rw [if_neg he] at h
      rw [← h]
      exact he

/-- C6: every failing outcome of the generation call — transport error
or a text-instead-of-image response — leaves the displayed image and
the history unchanged, clears the busy flag, stores exactly the single
(nonempty) error message in UI state, and dispatched only the one
original request. -/
theorem c6_failure_single_error_no_partial (s : AppState)
    (tr : Except String (Option (List RespPart))) (idv : String) (ts : Nat)
    (m : String) (hguard : promptBlank s.prompt = false)
    (hl : s.isLoading = false)
    (herr : generateOrEditImageOutcome tr = Except.error m) :
    (handleGenerateApp0 s (generateOrEditImageOutcome tr) idv ts).1.generatedImage
        = s.generatedImage ∧
    (handleGenerateApp0 s (generateOrEditImageOutcome tr) idv ts).1.history
        = s.history ∧
    (handleGenerateApp0 s (generateOrEditImageOutcome tr) idv ts).1.error
        = some m ∧ m ≠ "" ∧
    (handleGenerateApp0 s (generateOrEditImageOutcome tr) idv ts).1.isLoading
        = false ∧
    (handleGenerateApp0 s (generateOrEditImageOutcome tr) idv ts).2
        = some ⟨s.prompt, s.sourceImages, s.aspectRatio⟩ := by
  have hm : m ≠ "" := gei_error_ne_empty tr m herr
  rw [herr]
  refine ⟨?_, ?_, ?_, hm, ?_, ?_⟩ <;>
    simp [handleGenerateApp0, runGenerate, hguard, hl, hm]

/-- Concrete run of `c6_failure_single_error_no_partial`: a transport
error on a state that already shows a result and has history. -/
theorem c6_failure_single_error_no_partial_witness :
    (handleGenerateApp0
        ⟨"p", [], some "g", false, false, none, "1:1", [⟨"h1", "u1", "p1", [], 1⟩]⟩
        (generateOrEditImageOutcome (Except.error "boom")) "id" 2).1.generatedImage
      = some "g" ∧
    (handleGenerateApp0
        ⟨"p", [], some "g", false, false, none, "1:1", [⟨"h1", "u1", "p1", [], 1⟩]⟩
        (generateOrEditImageOutcome (Except.error "boom")) "id" 2).1.history
      = [⟨"h1", "u1", "p1", [], 1⟩] ∧
    (handleGenerateApp0
        ⟨"p", [], some "g", false, false, none, "1:1", [⟨"h1", "u1", "p1", [], 1⟩]⟩
        (generateOrEditImageOutcome (Except.error "boom")) "id" 2).1.error
      = some "boom" ∧ "boom" ≠ "" ∧
    (handleGenerateApp0
        ⟨"p", [], some "g", false, false, none, "1:1", [⟨"h1", "u1", "p1", [], 1⟩]⟩
        (generateOrEditImageOutcome (Except.error "boom")) "id" 2).1.isLoading
      = false ∧
    (handleGenerateApp0
        ⟨"p", [], some "g", false, false, none, "1:1", [⟨"h1", "u1", "p1", [], 1⟩]⟩
        (generateOrEditImageOutcome (Except.error "boom")) "id" 2).2
      = some ⟨"p", [], "1:1"⟩ :=
  c6_failure_single_error_no_partial
    ⟨"p", [], some "g", false, false, none, "1:1", [⟨"h1", "u1", "p1", [], 1⟩]⟩
    (Except.error "boom") "id" 2 "boom" (by decide) rfl rfl

lemma takeWhile_until_semi (t : List Char) (r' : List Char)
    (h : ∀ c ∈ t, c ≠ ';') :
    (t ++ ';' :: r').takeWhile (fun c => c != ';') = t := by
  induction t with
  | nil => simp [List.takeWhile]
  | cons c cs ih =>
    have hc : (c != ';') = true := by
      have := h c (List.mem_cons_self c cs)
      simpa using this
    simp only [List.cons_append, List.takeWhile_cons, hc, if_true]
    rw [ih (fun d hd => h d (List.mem_cons_of_mem c hd))]

lemma tagAt_data_url (t r : List Char) (ht : t ≠ [])
    (hsc : ∀ c ∈ t, c ≠ ';') :
    tagAt ("data:".toList ++ t ++ ';' :: r) = some t := by
  have hlist : "data:".toList ++ t ++ ';' :: r =
      'd' :: 'a' :: 't' :: 'a' :: ':' :: (t ++ ';' :: r) := by
    simp
  rw [hlist]
  unfold tagAt
  rw [if_pos (by simp [List.take])]
  have hdrop : ('d' :: 'a' :: 't' :: 'a' :: ':' :: (t ++ ';' :: r)).drop 5 =
      t ++ ';' :: r := by
    simp [List.drop]
  rw [hdrop]
  simp only [takeWhile_until_semi t r hsc]
  rw [if_pos]
  constructor
  · simpa using ht
  · simp

lemma findTag_data_url (t r : List Char) (ht : t ≠ [])
    (hsc : ∀ c ∈ t, c ≠ ';') :
    findTag ("data:".toList ++ t ++ ';' :: r) = some t := by
  have hlist : "data:".toList ++ t ++ ';' :: r =
      'd' :: ('a' :: 't' :: 'a' :: ':' :: (t ++ ';' :: r)) := by
    simp
  rw [hlist]
  unfold findTag
  rw [show ('d' :: ('a' :: 't' :: 'a' :: ':' :: (t ++ ';' :: r))) =
      "data:".toList ++ t ++ ';' :: r by simp] at *
  rw [tagAt_data_url t r ht hsc]

/-- C5: restoring a history entry parses each restored source image's
media type from that image's own payload: whenever a stored payload
decomposes as `data:` followed by a nonempty semicolon-free tag and a
semicolon, the restored entry at the same position carries exactly
that tag as its media type. -/
theorem c5_restore_mime_from_tag (s : AppState) (item : GeneratedImage)
    (i : Nat) (payload : String) (t r : List Char)
    (hp : item.sourceImages[i]? = some payload)
    (hdec : payload.toList = "data:".toList ++ t ++ ';' :: r)
    (ht : t ≠ []) (hsc : ∀ c ∈ t, c ≠ ';') :
    (handleRestoreHistory s item).sourceImages[i]? =
      some ⟨payload, String.mk t⟩ := by
  have hi : i < item.sourceImages.length := (List.getElem?_eq_some.mp hp).1
  have hpos : 0 < item.sourceImages.length :=
    Nat.lt_of_le_of_lt (Nat.zero_le i) hi
  have hft : findTag payload.toList = some t := by
    rw [hdec]
    exact findTag_data_url t r ht hsc
  show (if 0 < item.sourceImages.length then
      item.sourceImages.map restoreImage else [])[i]? = some ⟨payload, String.mk t⟩
  rw [if_pos hpos, List.getElem?_map, hp]
  have hft2 : findTag payload.data = some t := hft
  simp [restoreImage, hft2]

/-- Concrete run of `c5_restore_mime_from_tag`: a stored jpeg payload
restores with media type `image/jpeg`, not the png default. -/
theorem c5_restore_mime_from_tag_witness :
    (handleRestoreHistory ⟨"", [], none, false, false, none, "1:1", []⟩
        ⟨"id", "u", "pr", ["data:image/jpeg;base64,QQ"], 3⟩).sourceImages[0]? =
      some ⟨"data:image/jpeg;base64,QQ", String.mk "image/jpeg".toList⟩ :=
  c5_restore_mime_from_tag ⟨"", [], none, false, false, none, "1:1", []⟩
    ⟨"id", "u", "pr", ["data:image/jpeg;base64,QQ"], 3⟩ 0
    "data:image/jpeg;base64,QQ" "image/jpeg".toList "base64,QQ".toList
    rfl (by decide) (by decide) (by decide)

/-- C9: when a stored payload does not match the `data:<type>;`
pattern anywhere, the restored source image gets the fixed fallback
media type `image/png`. -/
theorem c9_fallback_png (s : AppState) (item : GeneratedImage) (i : Nat)
    (payload : String) (hp : item.sourceImages[i]? = some payload)
    (hnone : findTag payload.toList = none) :
    (handleRestoreHistory s item).sourceImages[i]? =
      some ⟨payload, "image/png"⟩ := by
  have hi : i < item.sourceImages.length := (List.getElem?_eq_some.mp hp).1
  have hpos : 0 < item.sourceImages.length :=
    Nat.lt_of_le_of_lt (Nat.zero_le i) hi
  show (if 0 < item.sourceImages.length then
      item.sourceImages.map restoreImage else [])[i]? = some ⟨payload, "image/png"⟩
  rw [if_pos hpos, List.getElem?_map, hp]
  have hn2 : findTag payload.data = none := hnone
  simp [restoreImage, hn2]

/-- Concrete run of `c9_fallback_png`: a payload without the data-URL
tag restores as `image/png`. -/
theorem c9_fallback_png_witness :
    (handleRestoreHistory ⟨"", [], none, false, false, none, "1:1", []⟩
        ⟨"id", "u", "pr", ["nota-url"], 3⟩).sourceImages[0]? =
      some ⟨"nota-url", "image/png"⟩ :=
  c9_fallback_png ⟨"", [], none, false, false, none, "1:1", []⟩
    ⟨"id", "u", "pr", ["nota-url"], 3⟩ 0 "nota-url" rfl (by decide)

/-- The officially supported aspect ratios of services/gemini.ts. -/
def SUPPORTED_ASPECT_RATIOS : List String :=
  ["1:1", "2:3", "3:2", "3:4", "4:3", "4:5", "5:4", "9:16", "16:9", "21:9"]

/-- The base system instruction of `generateOrEditImage`. -/
def baseSystemInstruction : String :=
  "You are an advanced image generation model. Your task is to generate or edit images based on the user's prompt. Do not output text descriptions; always generate the requested image."

/-- The extra instruction appended for an unsupported (special) ratio,
naming the originally requested ratio. -/
def specialRatioInstruction (ar : String) : String :=
  " Special formatting request: The user wants an ultra-wide panoramic aspect ratio of " ++ ar ++ ". Since the canvas is limited to 21:9, ensure the composition is cinematic and uses the full horizontal width for an ultra-wide feel."

/-- The ratio actually placed in `imageConfig.aspectRatio`:
`isSpecialRatio ? "21:9" : aspectRatio`. -/
def configRatio (ar : String) : String :=
  if SUPPORTED_ASPECT_RATIOS.contains ar then ar else "21:9"

/-- The system instruction actually sent: the base instruction, plus
the special-ratio addendum when the hint is unsupported. -/
def systemInstructionFor (ar : String) : String :=
  if SUPPORTED_ASPECT_RATIOS.contains ar then baseSystemInstruction
  else baseSystemInstruction ++ specialRatioInstruction ar

/-- C10: an aspect-ratio hint outside the supported set is replaced by
`21:9` in the image config and the ultra-wide instruction naming the
original hint is appended to the system instruction; a supported hint
is passed through unchanged with the base instruction alone. -/
theorem c10_aspect_ratio_remap (ar : String) :
    (SUPPORTED_ASPECT_RATIOS.contains ar = false →
      configRatio ar = "21:9" ∧
      systemInstructionFor ar = baseSystemInstruction ++ specialRatioInstruction ar) ∧
    (SUPPORTED_ASPECT_RATIOS.contains ar = true →
      configRatio ar = ar ∧
      systemInstructionFor ar = baseSystemInstruction) := by
  refine ⟨fun h => ?_, fun h => ?_⟩
  · have h2 : ar ∉ SUPPORTED_ASPECT_RATIOS := by simpa using h
    simp [configRatio, systemInstructionFor, h2]
  · have h2 : ar ∈ SUPPORTED_ASPECT_RATIOS := by simpa using h
    simp [configRatio, systemInstructionFor, h2]

/-- Concrete runs of `c10_aspect_ratio_remap` at the unsupported hint
`10:1` and the supported hint `1:1`. -/
theorem c10_aspect_ratio_remap_witness :
    (configRatio "10:1" = "21:9" ∧
      systemInstructionFor "10:1" =
        baseSystemInstruction ++ specialRatioInstruction "10:1") ∧
    (configRatio "1:1" = "1:1" ∧
      systemInstructionFor "1:1" = baseSystemInstruction) :=
  ⟨(c10_aspect_ratio_remap "10:1").1 (by decide),
    (c10_aspect_ratio_remap "1:1").2 (by decide)⟩
